import Mathlib

/-!
Shallow embedding of `src/grid_simulator_app.py` (grid-trading schedule
calculator).  The numeric core `build_grid` is modelled over `ℚ`;
`np.round` is round-half-to-even, modelled exactly by `rhe`/`rnd`.
-/

/-- Round-half-to-even of a rational to the nearest integer
(the rounding `np.round`/`np.rint` performs). -/
def rhe (x : ℚ) : ℤ :=
  if x - ⌊x⌋ < 1/2 then ⌊x⌋
  else if 1/2 < x - ⌊x⌋ then ⌊x⌋ + 1
  else if ⌊x⌋ % 2 = 0 then ⌊x⌋ else ⌊x⌋ + 1

/-- `np.round(x, d)`: round `x` to `d` decimal places, ties to even. -/
def rnd (d : ℕ) (x : ℚ) : ℚ := (rhe (x * 10 ^ d) : ℚ) / 10 ^ d

/-- The scalar inputs of `build_grid` (sidebar parameters). -/
structure GridParams where
  min_px : ℚ
  max_px : ℚ
  start_px : ℚ
  levels : ℕ
  usdt_slice : ℚ
  leverage : ℕ
  price_dp : ℕ
deriving DecidableEq

/-- Validity of the inputs as the spec constrains them: positive prices and
slice, `max > min`, `levels ≥ 2`, `leverage ≥ 1`, `2 ≤ price_dp ≤ 10`. -/
def Valid (p : GridParams) : Prop :=
  0 < p.min_px ∧ p.min_px < p.max_px ∧ 0 < p.start_px ∧ 2 ≤ p.levels ∧
    0 < p.usdt_slice ∧ 1 ≤ p.leverage ∧ 2 ≤ p.price_dp ∧ p.price_dp ≤ 10

instance (p : GridParams) : Decidable (Valid p) := by
  unfold Valid; infer_instance

/-- `intervals = levels - 1`. -/
def intervals (p : GridParams) : ℕ := p.levels - 1

/-- `raw_gap = (max_px - min_px) / intervals`. -/
def raw_gap (p : GridParams) : ℚ := (p.max_px - p.min_px) / (intervals p : ℚ)

/-- `raw_prices = max_px - np.arange(levels) * raw_gap` (entry `i`). -/
def raw_price (p : GridParams) (i : ℕ) : ℚ := p.max_px - i * raw_gap p

/-- `prices = np.round(raw_prices, price_dp)` (entry `i`). -/
def price (p : GridParams) (i : ℕ) : ℚ := rnd p.price_dp (raw_price p i)

/-- `qty = np.floor_divide(usdt_slice / prices, 10) * 10; qty = np.where(qty == 0, 10, qty)`. -/
def qty (p : GridParams) (i : ℕ) : ℚ :=
  let c : ℚ := (⌊p.usdt_slice / price p i / 10⌋ : ℚ) * 10
  if c = 0 then 10 else c

/-- `acc_qty = qty.cumsum()` (entry `i`). -/
def acc_qty (p : GridParams) (i : ℕ) : ℚ :=
  ∑ j ∈ Finset.range (i + 1), qty p j

/-- `(qty * prices).cumsum()` (entry `i`), the numerator of the VWAP. -/
def cum_notional (p : GridParams) (i : ℕ) : ℚ :=
  ∑ j ∈ Finset.range (i + 1), qty p j * price p j

/-- `vwap = np.round((qty * prices).cumsum() / acc_qty, price_dp)` (entry `i`). -/
def vwap (p : GridParams) (i : ℕ) : ℚ :=
  rnd p.price_dp (cum_notional p i / acc_qty p i)

/-- `unreal = np.round((prices - start_px) * acc_qty, 2)` (entry `i`). -/
def unreal (p : GridParams) (i : ℕ) : ℚ :=
  rnd 2 ((price p i - p.start_px) * acc_qty p i)

/-- The accumulation loop
`draw[i] = draw[i-1] + (prices[i-1] - prices[i]) * acc_qty[i-1]`,
starting from `draw = np.zeros_like(prices)`. -/
def drawAcc (p : GridParams) : ℕ → ℚ
  | 0 => 0
  | i + 1 => drawAcc p i + (price p i - price p (i + 1)) * acc_qty p i

/-- The published column `draw = -np.round(draw, 2)` (entry `i`). -/
def drawdown (p : GridParams) (i : ℕ) : ℚ := -(rnd 2 (drawAcc p i))

/-- `qty` with float-definedness tracked.  When a rounded price is `0` the
program's `usdt_slice / prices` entry is non-finite (`inf`, then `inf`/`nan`
through `floor_divide`), the `qty == 0` substitution does not fire, and the
row has no finite quantity: `none` models that.  At a nonzero price this is
exactly `some (qty p i)`. -/
def qty_opt (p : GridParams) (i : ℕ) : Option ℚ :=
  if price p i = 0 then none else some (qty p i)

/-- `qty.cumsum()` with float-definedness tracked: a non-finite quantity
poisons every later cumulative entry. -/
def acc_qty_opt (p : GridParams) : ℕ → Option ℚ
  | 0 => qty_opt p 0
  | i + 1 =>
    Option.bind (acc_qty_opt p i) fun a =>
      Option.bind (qty_opt p (i + 1)) fun q => some (a + q)

/-- The drawdown loop with float-definedness tracked: a non-finite
`acc_qty` entry (e.g. `(0.0 - 0.0) * inf = nan`) leaves every later
accumulated value without a finite result. -/
def drawAcc_opt (p : GridParams) : ℕ → Option ℚ
  | 0 => some 0
  | i + 1 =>
    Option.bind (drawAcc_opt p i) fun d =>
      Option.bind (acc_qty_opt p i) fun a =>
        some (d + (price p i - price p (i + 1)) * a)

/-- The published Drawdown column with float-definedness tracked. -/
def drawdown_opt (p : GridParams) (i : ℕ) : Option ℚ :=
  Option.map (fun d => -(rnd 2 d)) (drawAcc_opt p i)

/-- `m_slice = np.round(usdt_slice / leverage, 2)`. -/
def m_slice (p : GridParams) : ℚ := rnd 2 (p.usdt_slice / (p.leverage : ℚ))

/-- `acc_margin = np.round(m_slice * np.arange(1, levels + 1), 2)` (entry `i`). -/
def acc_margin (p : GridParams) (i : ℕ) : ℚ := rnd 2 (m_slice p * (i + 1))

/-- `notional = np.round(usdt_slice * np.arange(1, levels + 1), 2)` (entry `i`). -/
def notional (p : GridParams) (i : ℕ) : ℚ := rnd 2 (p.usdt_slice * (i + 1))

/-- One row of the resulting DataFrame (columns in source order). -/
structure GridRow where
  level : ℕ
  price : ℚ
  qty : ℚ
  accQty : ℚ
  avgPrice : ℚ
  unrealised : ℚ
  drawdown : ℚ
  pnl : ℚ
  marginPerLvl : ℚ
  accMargin : ℚ
  notional : ℚ
deriving DecidableEq

/-- Row `i` (0-based) of the DataFrame built by `build_grid`. -/
def mkRow (p : GridParams) (i : ℕ) : GridRow :=
  { level := i + 1
    price := price p i
    qty := qty p i
    accQty := acc_qty p i
    avgPrice := vwap p i
    unrealised := unreal p i
    drawdown := drawdown p i
    pnl := unreal p i
    marginPerLvl := m_slice p
    accMargin := acc_margin p i
    notional := notional p i }

/-- `build_grid`: the DataFrame (as the list of its rows) and `raw_gap`. -/
def build_grid (p : GridParams) : List GridRow × ℚ :=
  ((List.range p.levels).map (mkRow p), raw_gap p)

/-- The input-surface guard `if px_top <= px_bottom: st.error(...); st.stop()`:
`true` means the computation is blocked before `build_grid` is called. -/
def ui_blocks (px_top px_bottom : ℚ) : Bool := decide (px_top ≤ px_bottom)

/-- A stored template record.  The save path always writes all eight keys;
`price_dp` / `gap_dp` are `Option`-valued because `template_to_kwargs`
reads them with `d.get(..., default)`. -/
structure TemplateRecord where
  max_price : ℚ
  min_price : ℚ
  start_price : ℚ
  levels : ℕ
  usdt_slice : ℚ
  leverage : ℕ
  price_dp : Option ℕ
  gap_dp : Option ℕ
deriving DecidableEq

/-- The sidebar parameter values a template is loaded into (and saved from). -/
structure Kwargs where
  px_top : ℚ
  px_bottom : ℚ
  spot : ℚ
  levels : ℕ
  slice_val : ℚ
  leverage : ℕ
  price_dp : ℕ
  gap_dp : ℕ
deriving DecidableEq

/-- `template_to_kwargs`: read a stored record back, defaulting
`price_dp` to 6 and `gap_dp` to 8 when the keys are absent. -/
def template_to_kwargs (d : TemplateRecord) : Kwargs :=
  { px_top := d.max_price
    px_bottom := d.min_price
    spot := d.start_price
    levels := d.levels
    slice_val := d.usdt_slice
    leverage := d.leverage
    price_dp := d.price_dp.getD 6
    gap_dp := d.gap_dp.getD 8 }

/-- The record written by the Save-template button: every key is stored,
including `price_dp` and `gap_dp`. -/
def record_of_kwargs (k : Kwargs) : TemplateRecord :=
  { max_price := k.px_top
    min_price := k.px_bottom
    start_price := k.spot
    levels := k.levels
    usdt_slice := k.slice_val
    leverage := k.leverage
    price_dp := some k.price_dp
    gap_dp := some k.gap_dp }

/-- The Save-template action on the store:
`if st.button("Save template") and new_tpl_name: tpls[new_tpl_name] = {...}`.
An empty name is a no-op; otherwise the record is written under the name. -/
def save_template (tpls : String → Option TemplateRecord) (name : String)
    (k : Kwargs) : String → Option TemplateRecord :=
  if name = "" then tpls
  else fun n => if n = name then some (record_of_kwargs k) else tpls n

/-- The spec's concrete scenario input (`price_dp = 6`). -/
def p6 : GridParams :=
  { min_px := 1, max_px := 7, start_px := 2.7916, levels := 124,
    usdt_slice := 203.252, leverage := 50, price_dp := 6 }

/-- Valid parameters whose two rounded prices coincide: the gap `0.001`
is below the price resolution `10 ^ (-2)`. -/
def pC3 : GridParams :=
  { min_px := 1, max_px := 1001/1000, start_px := 1, levels := 2,
    usdt_slice := 1, leverage := 1, price_dp := 2 }

/-- Valid parameters with positive `min_px = 0.001` whose bottom level
price rounds to `0` at `price_dp = 2`. -/
def pZ : GridParams :=
  { min_px := 1/1000, max_px := 7, start_px := 1, levels := 2,
    usdt_slice := 100, leverage := 1, price_dp := 2 }

/-- Valid parameters (`min_px = 0.001`, `max_px = 0.004`, `price_dp = 2`)
where every rounded level price is `0`, so every quantity is non-finite in
the program and the published Drawdown entries past row 0 are `nan`. -/
def pD : GridParams :=
  { min_px := 1/1000, max_px := 4/1000, start_px := 1, levels := 3,
    usdt_slice := 100, leverage := 1, price_dp := 2 }

/-- A small unexceptional valid parameter set used as a witness input. -/
def pW : GridParams :=
  { min_px := 1, max_px := 2, start_px := 1, levels := 2,
    usdt_slice := 100, leverage := 1, price_dp := 2 }

/-- An inverted range (`max_px ≤ min_px`), otherwise well-formed. -/
def pBad : GridParams :=
  { min_px := 2, max_px := 1, start_px := 1, levels := 2,
    usdt_slice := 100, leverage := 1, price_dp := 2 }

/-- An empty template store. -/
def emptyStore : String → Option TemplateRecord := fun _ => none

/-- A concrete parameter snapshot used to exercise the template round-trip. -/
def kW : Kwargs :=
  { px_top := 7, px_bottom := 1, spot := 2.7916, levels := 124,
    slice_val := 203.252, leverage := 50, price_dp := 6, gap_dp := 8 }

/-! ### Elementary facts about round-half-to-even -/

lemma fract_nonneg_q (x : ℚ) : 0 ≤ x - ⌊x⌋ := by
  have := Int.floor_le x
  linarith

lemma fract_lt_one_q (x : ℚ) : x - ⌊x⌋ < 1 := by
  have := Int.lt_floor_add_one x
  push_cast at this ⊢
  linarith

lemma rhe_intCast (n : ℤ) : rhe (n : ℚ) = n := by
  unfold rhe
  rw [Int.floor_intCast]
  norm_num

lemma floor_le_rhe (x : ℚ) : ⌊x⌋ ≤ rhe x := by
  unfold rhe
  split_ifs <;> omega

lemma rhe_le_floor_add_one (x : ℚ) : rhe x ≤ ⌊x⌋ + 1 := by
  unfold rhe
  split_ifs <;> omega

lemma sub_half_le_rhe (x : ℚ) : x - 1/2 ≤ (rhe x : ℚ) := by
  have h0 := fract_nonneg_q x
  have h1 := fract_lt_one_q x
  unfold rhe
  split_ifs with hc1 hc2 hc3 <;> push_cast <;> linarith

lemma rhe_le_add_half (x : ℚ) : (rhe x : ℚ) ≤ x + 1/2 := by
  have h0 := fract_nonneg_q x
  have h1 := fract_lt_one_q x
  unfold rhe
  split_ifs with hc1 hc2 hc3 <;> push_cast <;> linarith

lemma rhe_mono {x y : ℚ} (h : x ≤ y) : rhe x ≤ rhe y := by
  have hf : ⌊x⌋ ≤ ⌊y⌋ := Int.floor_le_floor h
  rcases lt_or_eq_of_le hf with hlt | heq
  · calc rhe x ≤ ⌊x⌋ + 1 := rhe_le_floor_add_one x
      _ ≤ ⌊y⌋ := by omega
      _ ≤ rhe y := floor_le_rhe y
  · unfold rhe
    rw [← heq]
    have hfr : x - (⌊x⌋ : ℚ) ≤ y - (⌊x⌋ : ℚ) := by linarith
    split_ifs <;> first | omega | linarith

lemma rhe_nonneg {x : ℚ} (h : 0 ≤ x) : 0 ≤ rhe x := by
  have : rhe (0 : ℚ) ≤ rhe x := by
    apply rhe_mono h
  have h0 : rhe ((0 : ℤ) : ℚ) = 0 := rhe_intCast 0
  push_cast at h0
  omega

lemma rhe_pos {x : ℚ} (h : 1/2 < x) : 0 < rhe x := by
  have := sub_half_le_rhe x
  have hq : (0 : ℚ) < (rhe x : ℚ) := by linarith
  exact_mod_cast hq

lemma rhe_lt_rhe {x y : ℚ} (h : x + 1 < y) : rhe x < rhe y := by
  have h1 := rhe_le_add_half x
  have h2 := sub_half_le_rhe y
  have : (rhe x : ℚ) < (rhe y : ℚ) := by linarith
  exact_mod_cast this

/-! ### Facts about decimal rounding `rnd` -/

lemma pow_ten_pos (d : ℕ) : (0 : ℚ) < 10 ^ d := by positivity

lemma rnd_mono (d : ℕ) {x y : ℚ} (h : x ≤ y) : rnd d x ≤ rnd d y := by
  unfold rnd
  have hm : rhe (x * 10 ^ d) ≤ rhe (y * 10 ^ d) :=
    rhe_mono (by nlinarith [pow_ten_pos d])
  have hm' : ((rhe (x * 10 ^ d) : ℤ) : ℚ) ≤ ((rhe (y * 10 ^ d) : ℤ) : ℚ) := by
    exact_mod_cast hm
  have hp := pow_ten_pos d
  gcongr

lemma rnd_nonneg (d : ℕ) {x : ℚ} (h : 0 ≤ x) : 0 ≤ rnd d x := by
  unfold rnd
  have : (0 : ℤ) ≤ rhe (x * 10 ^ d) :=
    rhe_nonneg (by nlinarith [pow_ten_pos d])
  have h0 : ((0 : ℤ) : ℚ) ≤ (rhe (x * 10 ^ d) : ℚ) := by exact_mod_cast this
  have := pow_ten_pos d
  positivity

lemma rnd_pos (d : ℕ) {x : ℚ} (h : 1 / 2 < x * 10 ^ d) : 0 < rnd d x := by
  unfold rnd
  have h1 : (0 : ℤ) < rhe (x * 10 ^ d) := rhe_pos h
  have h2 : (0 : ℚ) < (rhe (x * 10 ^ d) : ℚ) := by exact_mod_cast h1
  exact div_pos h2 (pow_ten_pos d)

lemma rnd_eq_self {d : ℕ} {x : ℚ} {n : ℤ} (hx : x * 10 ^ d = (n : ℚ)) :
    rnd d x = x := by
  unfold rnd
  rw [hx, rhe_intCast, ← hx]
  field_simp

lemma rnd_eq_of_lt_half {d : ℕ} {x : ℚ} {n : ℤ}
    (h1 : (n : ℚ) ≤ x * 10 ^ d) (h2 : x * 10 ^ d - n < 1/2) :
    rnd d x = (n : ℚ) / 10 ^ d := by
  unfold rnd
  congr 2
  have hfl : ⌊x * 10 ^ d⌋ = n := by
    apply Int.floor_eq_iff.mpr
    constructor
    · exact_mod_cast h1
    · linarith
  unfold rhe
  rw [hfl]
  rw [if_pos h2]

lemma rnd_eq_of_half_lt {d : ℕ} {x : ℚ} {n : ℤ}
    (h1 : 1/2 < x * 10 ^ d - n) (h2 : x * 10 ^ d < (n : ℚ) + 1) :
    rnd d x = ((n + 1 : ℤ) : ℚ) / 10 ^ d := by
  unfold rnd
  congr 2
  have hfl : ⌊x * 10 ^ d⌋ = n := by
    apply Int.floor_eq_iff.mpr
    constructor
    · linarith
    · linarith
  unfold rhe
  rw [hfl]
  rw [if_neg (by linarith), if_pos h1]

/-! ### Structural facts about the grid -/

lemma intervals_pos {p : GridParams} (h2 : 2 ≤ p.levels) : 0 < intervals p := by
  unfold intervals
  omega

lemma intervals_cast_pos {p : GridParams} (h2 : 2 ≤ p.levels) :
    (0 : ℚ) < (intervals p : ℚ) := by
  exact_mod_cast intervals_pos h2

lemma raw_gap_pos {p : GridParams} (h : Valid p) : 0 < raw_gap p := by
  obtain ⟨h1, h2, h3, h4, hrest⟩ := h
  unfold raw_gap
  exact div_pos (by linarith) (intervals_cast_pos h4)

lemma raw_price_anti {p : GridParams} (hg : 0 ≤ raw_gap p) {i j : ℕ}
    (hij : i ≤ j) : raw_price p j ≤ raw_price p i := by
  unfold raw_price
  have hc : (i : ℚ) ≤ (j : ℚ) := by exact_mod_cast hij
  nlinarith

lemma price_anti {p : GridParams} (h : Valid p) {i j : ℕ} (hij : i ≤ j) :
    price p j ≤ price p i :=
  rnd_mono _ (raw_price_anti (raw_gap_pos h).le hij)

lemma intervals_mul_gap {p : GridParams} (h2 : 2 ≤ p.levels) :
    (intervals p : ℚ) * raw_gap p = p.max_px - p.min_px := by
  have hI : (intervals p : ℚ) ≠ 0 := (intervals_cast_pos h2).ne.symm
  unfold raw_gap
  field_simp

lemma min_le_raw_price {p : GridParams} (h : Valid p) {i : ℕ}
    (hi : i < p.levels) : p.min_px ≤ raw_price p i := by
  have h4 : 2 ≤ p.levels := h.2.2.2.1
  have hgap : 0 < raw_gap p := raw_gap_pos h
  have hiI : (i : ℚ) ≤ (intervals p : ℚ) := by
    have hn : i ≤ intervals p := by unfold intervals; omega
    exact_mod_cast hn
  have hkey := intervals_mul_gap h4
  unfold raw_price
  nlinarith

lemma price_nonneg {p : GridParams} (h : Valid p) {i : ℕ} (hi : i < p.levels) :
    0 ≤ price p i := by
  apply rnd_nonneg
  have h1 : 0 < p.min_px := h.1
  have := min_le_raw_price h hi
  linarith

lemma qty_ge_ten {p : GridParams} (h : Valid p) {i : ℕ} (hi : i < p.levels) :
    10 ≤ qty p i := by
  unfold qty
  have hs : 0 < p.usdt_slice := h.2.2.2.2.1
  have hp : 0 ≤ price p i := price_nonneg h hi
  have hql : 0 ≤ p.usdt_slice / price p i / 10 :=
    div_nonneg (div_nonneg hs.le hp) (by norm_num)
  have hfl : 0 ≤ ⌊p.usdt_slice / price p i / 10⌋ := Int.floor_nonneg.mpr hql
  by_cases hc : ((⌊p.usdt_slice / price p i / 10⌋ : ℚ) * 10 = 0)
  · simp [hc]
  · simp only [if_neg hc]
    have hne : ⌊p.usdt_slice / price p i / 10⌋ ≠ 0 := by
      intro h0
      apply hc
      rw [h0]
      norm_num
    have h1 : 1 ≤ ⌊p.usdt_slice / price p i / 10⌋ := by omega
    have h1q : (1 : ℚ) ≤ (⌊p.usdt_slice / price p i / 10⌋ : ℚ) := by
      exact_mod_cast h1
    nlinarith

lemma qty_is_mul_ten (p : GridParams) (i : ℕ) :
    ∃ k : ℤ, qty p i = (k : ℚ) * 10 := by
  unfold qty
  by_cases hc : ((⌊p.usdt_slice / price p i / 10⌋ : ℚ) * 10 = 0)
  · exact ⟨1, by simp [hc]⟩
  · exact ⟨⌊p.usdt_slice / price p i / 10⌋, by simp [hc]⟩

lemma acc_qty_pos {p : GridParams} (h : Valid p) {i : ℕ} (hi : i < p.levels) :
    0 < acc_qty p i := by
  unfold acc_qty
  apply Finset.sum_pos
  · intro j hj
    have hj2 : j < p.levels := by
      have := Finset.mem_range.mp hj
      omega
    have := qty_ge_ten h hj2
    linarith
  · exact ⟨0, Finset.mem_range.mpr (Nat.succ_pos i)⟩

lemma acc_qty_step (p : GridParams) (i : ℕ) :
    acc_qty p (i + 1) = acc_qty p i + qty p (i + 1) := by
  unfold acc_qty
  rw [Finset.sum_range_succ]

lemma cum_notional_step (p : GridParams) (i : ℕ) :
    cum_notional p (i + 1) = cum_notional p i + qty p (i + 1) * price p (i + 1) := by
  unfold cum_notional
  rw [Finset.sum_range_succ]

lemma drawAcc_nonneg {p : GridParams} (h : Valid p) (i : ℕ) (hi : i < p.levels) :
    0 ≤ drawAcc p i := by
  induction i with
  | zero => simp [drawAcc]
  | succ n ih =>
    have hn : n < p.levels := by omega
    have h1 := ih hn
    have h2 : price p (n + 1) ≤ price p n := price_anti h (Nat.le_succ n)
    have h3 : 0 ≤ acc_qty p n := (acc_qty_pos h hn).le
    show 0 ≤ drawAcc p n + (price p n - price p (n + 1)) * acc_qty p n
    nlinarith

lemma cum_notional_bounds {p : GridParams} (h : Valid p) (i : ℕ)
    (hi : i < p.levels) :
    price p i * acc_qty p i ≤ cum_notional p i ∧
      cum_notional p i ≤ price p 0 * acc_qty p i := by
  induction i with
  | zero =>
    constructor <;>
      · unfold cum_notional acc_qty
        simp [Finset.sum_range_one]
        nlinarith [le_refl (qty p 0 * price p 0)]
  | succ n ih =>
    have hn : n < p.levels := by omega
    obtain ⟨ihl, ihr⟩ := ih hn
    have hq : 10 ≤ qty p (n + 1) := qty_ge_ten h hi
    have hA : 0 ≤ acc_qty p n := (acc_qty_pos h hn).le
    have hpa : price p (n + 1) ≤ price p n := price_anti h (Nat.le_succ n)
    have hp0 : price p (n + 1) ≤ price p 0 := price_anti h (Nat.zero_le _)
    rw [acc_qty_step, cum_notional_step]
    constructor
    · nlinarith
    · nlinarith

lemma price_rnd_fix (p : GridParams) (i : ℕ) :
    rnd p.price_dp (price p i) = price p i := by
  apply rnd_eq_self (n := rhe (raw_price p i * 10 ^ p.price_dp))
  unfold price rnd
  field_simp

lemma qty_opt_of_ne {p : GridParams} {i : ℕ} (hp : price p i ≠ 0) :
    qty_opt p i = some (qty p i) := by
  unfold qty_opt
  rw [if_neg hp]

lemma acc_qty_opt_eq {p : GridParams} (i : ℕ)
    (hp : ∀ j, j ≤ i → price p j ≠ 0) :
    acc_qty_opt p i = some (acc_qty p i) := by
  induction i with
  | zero =>
    show qty_opt p 0 = some (acc_qty p 0)
    rw [qty_opt_of_ne (hp 0 (le_refl 0))]
    unfold acc_qty
    rw [Finset.sum_range_one]
  | succ n ih =>
    have h1 := ih fun j hj => hp j (le_trans hj (Nat.le_succ n))
    show Option.bind (acc_qty_opt p n) _ = _
    rw [h1, qty_opt_of_ne (hp (n + 1) (le_refl _))]
    show some (acc_qty p n + qty p (n + 1)) = some (acc_qty p (n + 1))
    rw [acc_qty_step]

lemma drawAcc_opt_eq {p : GridParams} (i : ℕ)
    (hp : ∀ j, j < i → price p j ≠ 0) :
    drawAcc_opt p i = some (drawAcc p i) := by
  induction i with
  | zero => rfl
  | succ n ih =>
    have h1 := ih fun j hj => hp j (Nat.lt_succ_of_lt hj)
    have h2 := acc_qty_opt_eq n fun j hj => hp j (Nat.lt_succ_of_le hj)
    show Option.bind (drawAcc_opt p n) _ = _
    rw [h1, h2]
    show some (drawAcc p n + (price p n - price p (n + 1)) * acc_qty p n) =
      some (drawAcc p (n + 1))
    rfl

/-! ### Concrete evaluations at the named parameter sets -/

lemma rnd_zero (d : ℕ) : rnd d 0 = 0 := by
  apply rnd_eq_self (n := 0)
  norm_num

lemma price_p6_zero : price p6 0 = 7 := by
  have hraw : raw_price p6 0 = 7 := by
    norm_num [raw_price, raw_gap, intervals, p6]
  have hdp : p6.price_dp = 6 := rfl
  unfold price
  rw [hraw, hdp]
  exact rnd_eq_self (n := 7000000) (by norm_num)

lemma price_p6_last : price p6 123 = 1 := by
  have hraw : raw_price p6 123 = 1 := by
    norm_num [raw_price, raw_gap, intervals, p6]
  have hdp : p6.price_dp = 6 := rfl
  unfold price
  rw [hraw, hdp]
  exact rnd_eq_self (n := 1000000) (by norm_num)

lemma m_slice_p6 : m_slice p6 = 407 / 100 := by
  show rnd 2 (p6.usdt_slice / (p6.leverage : ℚ)) = 407 / 100
  have hs : p6.usdt_slice = 203252 / 1000 := by norm_num [p6]
  have hl : ((p6.leverage : ℕ) : ℚ) = 50 := by norm_num [p6]
  rw [hs, hl, rnd_eq_of_half_lt (n := 406) (by norm_num) (by norm_num)]
  norm_num

lemma acc_margin_p6_last : acc_margin p6 123 = 50468 / 100 := by
  unfold acc_margin
  rw [m_slice_p6, rnd_eq_self (n := 50468) (by norm_num)]
  norm_num

lemma notional_p6_last : notional p6 123 = 2520325 / 100 := by
  unfold notional
  have hs : p6.usdt_slice = 203252 / 1000 := by norm_num [p6]
  rw [hs, rnd_eq_of_half_lt (n := 2520324) (by norm_num) (by norm_num)]
  norm_num

lemma price_pC3_zero : price pC3 0 = 1 := by
  have hraw : raw_price pC3 0 = 1001 / 1000 := by
    norm_num [raw_price, raw_gap, intervals, pC3]
  have hdp : pC3.price_dp = 2 := rfl
  unfold price
  rw [hraw, hdp, rnd_eq_of_lt_half (n := 100) (by norm_num) (by norm_num)]
  norm_num

lemma price_pC3_one : price pC3 1 = 1 := by
  have hraw : raw_price pC3 1 = 1 := by
    norm_num [raw_price, raw_gap, intervals, pC3]
  have hdp : pC3.price_dp = 2 := rfl
  unfold price
  rw [hraw, hdp]
  exact rnd_eq_self (n := 100) (by norm_num)

lemma price_pZ_one : price pZ 1 = 0 := by
  have hraw : raw_price pZ 1 = 1 / 1000 := by
    norm_num [raw_price, raw_gap, intervals, pZ]
  have hdp : pZ.price_dp = 2 := rfl
  unfold price
  rw [hraw, hdp, rnd_eq_of_lt_half (n := 0) (by norm_num) (by norm_num)]
  norm_num

lemma price_pD_zero : price pD 0 = 0 := by
  have hraw : raw_price pD 0 = 4 / 1000 := by
    norm_num [raw_price, raw_gap, intervals, pD]
  have hdp : pD.price_dp = 2 := rfl
  unfold price
  rw [hraw, hdp, rnd_eq_of_lt_half (n := 0) (by norm_num) (by norm_num)]
  norm_num

lemma price_pW_zero : price pW 0 = 2 := by
  have hraw : raw_price pW 0 = 2 := by
    norm_num [raw_price, raw_gap, intervals, pW]
  have hdp : pW.price_dp = 2 := rfl
  unfold price
  rw [hraw, hdp]
  exact rnd_eq_self (n := 200) (by norm_num)

lemma price_pW_one : price pW 1 = 1 := by
  have hraw : raw_price pW 1 = 1 := by
    norm_num [raw_price, raw_gap, intervals, pW]
  have hdp : pW.price_dp = 2 := rfl
  unfold price
  rw [hraw, hdp]
  exact rnd_eq_self (n := 100) (by norm_num)

lemma price_zero_eq (p : GridParams) : price p 0 = rnd p.price_dp p.max_px := by
  unfold price raw_price
  norm_num

lemma price_last_eq {p : GridParams} (h2 : 2 ≤ p.levels) :
    price p (p.levels - 1) = rnd p.price_dp p.min_px := by
  unfold price raw_price
  congr 1
  have hkey := intervals_mul_gap h2
  have hc : ((p.levels - 1 : ℕ) : ℚ) = (intervals p : ℚ) := rfl
  rw [hc]
  linarith

/-! ### Claim theorems -/

/-- Claim C1: the published Drawdown column is the sequential accumulation
`draw[0] = 0`, `draw[i] = draw[i-1] + (price[i-1] - price[i]) * acc_qty[i-1]`,
with no rounding of the per-step terms (the accumulated value equals the
exact sum of the unrounded increments), and row `i` publishes
`-round(draw[i], 2)`. -/
theorem drawdown_running_accumulation (p : GridParams) (i : ℕ) :
    drawdown p i =
      -(rnd 2 (∑ j ∈ Finset.range i, (price p j - price p (j + 1)) * acc_qty p j)) ∧
    drawAcc p 0 = 0 ∧
    drawAcc p (i + 1) =
      drawAcc p i + (price p i - price p (i + 1)) * acc_qty p i := by
  have hsum : ∀ m : ℕ, drawAcc p m =
      ∑ j ∈ Finset.range m, (price p j - price p (j + 1)) * acc_qty p j := by
    intro m
    induction m with
    | zero => simp [drawAcc]
    | succ n ih =>
      rw [Finset.sum_range_succ, ← ih]
      rfl
  refine ⟨?_, rfl, rfl⟩
  unfold drawdown
  rw [hsum i]

/-- Claim C2 fails as stated: at the valid input `pZ` the bottom level's
rounded price is `0`, so the program's `usdt_slice / prices` entry is
non-finite, the `qty == 0` substitution does not fire, and the row has no
finite Qty at all — in particular no multiple of 10 that is at least 10. -/
theorem qty_floor_policy_cex :
    Valid pZ ∧ 1 < pZ.levels ∧ price pZ 1 = 0 ∧ qty_opt pZ 1 = none := by
  refine ⟨by norm_num [Valid, pZ], by norm_num [pZ], price_pZ_one, ?_⟩
  unfold qty_opt
  rw [if_pos price_pZ_one]

/-- Claim C2, amended: on every row whose rounded price is nonzero (where
the program's division is finite), Qty is
`floor((usdt_slice / price) / 10) * 10` with `10` substituted when that
value is `0`; hence every such Qty is a multiple of 10 and at least 10.
Rows whose rounded price is `0` have no finite Qty. -/
theorem qty_floor_policy (p : GridParams) (h : Valid p) (i : ℕ)
    (hi : i < p.levels) (hp : price p i ≠ 0) :
    qty_opt p i = some (qty p i) ∧
    qty p i = (if ((⌊p.usdt_slice / price p i / 10⌋ : ℚ) * 10 = 0) then 10
               else (⌊p.usdt_slice / price p i / 10⌋ : ℚ) * 10) ∧
    (∃ k : ℤ, qty p i = (k : ℚ) * 10) ∧ 10 ≤ qty p i :=
  ⟨qty_opt_of_ne hp, rfl, qty_is_mul_ten p i, qty_ge_ten h hi⟩

theorem qty_floor_policy_witness :
    Valid pW ∧ 0 < pW.levels ∧ price pW 0 ≠ 0 ∧
      (qty_opt pW 0 = some (qty pW 0) ∧
       (∃ k : ℤ, qty pW 0 = (k : ℚ) * 10) ∧ 10 ≤ qty pW 0) := by
  have hv : Valid pW := by norm_num [Valid, pW]
  have hl : 0 < pW.levels := by norm_num [pW]
  have hp : price pW 0 ≠ 0 := by
    rw [price_pW_zero]
    norm_num
  have hc := qty_floor_policy pW hv 0 hl hp
  exact ⟨hv, hl, hp, hc.1, hc.2.2⟩

/-- Claim C3 fails as stated: at `pC3` (valid inputs with
`max_px = 1.001`, `min_px = 1`, `price_dp = 2`, two levels) both rounded
prices equal `1`, so the Price column is not strictly decreasing. -/
theorem price_strict_decrease_cex :
    Valid pC3 ∧ 0 < pC3.levels - 1 ∧ price pC3 0 = price pC3 1 ∧
      ¬ (price pC3 1 < price pC3 0) := by
  refine ⟨by norm_num [Valid, pC3], by norm_num [pC3], ?_, ?_⟩
  · rw [price_pC3_zero, price_pC3_one]
  · rw [price_pC3_zero, price_pC3_one]
    exact lt_irrefl 1

/-- Claim C3, amended: the rounded Price column is strictly decreasing
provided the raw gap exceeds the price resolution `10 ^ (-price_dp)`;
rounding adjacent raw prices that differ by less than one decimal unit can
collapse them to an equal value. -/
theorem price_strict_decrease_amended (p : GridParams) (h : Valid p)
    (hgap : 1 / 10 ^ p.price_dp < raw_gap p) (i : ℕ) (hi : i + 1 < p.levels) :
    price p (i + 1) < price p i := by
  have hpow := pow_ten_pos p.price_dp
  have hdiff : raw_price p i - raw_price p (i + 1) = raw_gap p := by
    unfold raw_price
    push_cast
    ring
  have h1 : 1 < raw_gap p * 10 ^ p.price_dp := by
    rw [div_lt_iff₀ hpow] at hgap
    linarith
  have hkey : raw_price p (i + 1) * 10 ^ p.price_dp + 1 <
      raw_price p i * 10 ^ p.price_dp := by
    nlinarith
  have hlt := rhe_lt_rhe hkey
  have hc : ((rhe (raw_price p (i + 1) * 10 ^ p.price_dp)) : ℚ) <
      ((rhe (raw_price p i * 10 ^ p.price_dp)) : ℚ) := by exact_mod_cast hlt
  unfold price rnd
  rw [div_lt_div_iff₀ hpow hpow]
  nlinarith

theorem price_strict_decrease_amended_witness :
    Valid pW ∧ 1 / 10 ^ pW.price_dp < raw_gap pW ∧ 0 + 1 < pW.levels ∧
      price pW (0 + 1) < price pW 0 := by
  have hv : Valid pW := by norm_num [Valid, pW]
  have hg : 1 / 10 ^ pW.price_dp < raw_gap pW := by
    norm_num [raw_gap, intervals, pW]
  have hl : 0 + 1 < pW.levels := by norm_num [pW]
  exact ⟨hv, hg, hl, price_strict_decrease_amended pW hv hg 0 hl⟩

/-- Claim C4 fails as stated: at the valid input `pD` every rounded level
price is `0`, the quantities are non-finite, and from row 1 on the
published Drawdown has no finite value (the program prints `nan`, for which
`nan ≤ 0` is false), so "drawdown ≤ 0 in every row" does not hold. -/
theorem drawdown_nonpositive_cex :
    Valid pD ∧ 1 < pD.levels ∧ price pD 0 = 0 ∧ drawdown_opt pD 1 = none := by
  refine ⟨by norm_num [Valid, pD], by norm_num [pD], price_pD_zero, ?_⟩
  have hq : qty_opt pD 0 = none := by
    unfold qty_opt
    rw [if_pos price_pD_zero]
  show Option.map _ (drawAcc_opt pD 1) = none
  have hd : drawAcc_opt pD 1 = none := by
    show Option.bind (drawAcc_opt pD 0) _ = none
    show Option.bind (acc_qty_opt pD 0) _ = none
    show Option.bind (qty_opt pD 0) _ = none
    rw [hq]
    rfl
  rw [hd]
  rfl

/-- Claim C4, amended: on inputs whose rounded level prices are all nonzero
(where the program's rows are finite), the published Drawdown column is `0`
in row 0 and non-positive in every row. -/
theorem drawdown_nonpositive (p : GridParams) (h : Valid p)
    (hp : ∀ j, j < p.levels → price p j ≠ 0) (i : ℕ) (hi : i < p.levels) :
    drawdown_opt p i = some (drawdown p i) ∧
    drawdown p 0 = 0 ∧ drawdown p i ≤ 0 := by
  refine ⟨?_, ?_, ?_⟩
  · unfold drawdown_opt
    rw [drawAcc_opt_eq i fun j hj => hp j (lt_trans hj hi)]
    rfl
  · show -(rnd 2 (drawAcc p 0)) = 0
    show -(rnd 2 0) = 0
    rw [rnd_zero]
    norm_num
  · have h0 : 0 ≤ rnd 2 (drawAcc p i) := rnd_nonneg 2 (drawAcc_nonneg h i hi)
    unfold drawdown
    linarith

theorem drawdown_nonpositive_witness :
    Valid pW ∧ (∀ j, j < pW.levels → price pW j ≠ 0) ∧ 1 < pW.levels ∧
      (drawdown_opt pW 1 = some (drawdown pW 1) ∧
       drawdown pW 0 = 0 ∧ drawdown pW 1 ≤ 0) := by
  have hv : Valid pW := by norm_num [Valid, pW]
  have hp : ∀ j, j < pW.levels → price pW j ≠ 0 := by
    intro j hj
    have hj2 : j < 2 := hj
    interval_cases j
    · rw [price_pW_zero]
      norm_num
    · rw [price_pW_one]
      norm_num
  have hl : 1 < pW.levels := by norm_num [pW]
  exact ⟨hv, hp, hl, drawdown_nonpositive pW hv hp 1 hl⟩

/-- Claim C5: `build_grid` returns exactly `levels` rows, the first row's
Price is `round(max_price, price_dp)` and the last row's Price is
`round(min_price, price_dp)`. -/
theorem build_grid_shape (p : GridParams) (h : Valid p) :
    (build_grid p).1.length = p.levels ∧
    Option.map GridRow.price (build_grid p).1.head? =
      some (rnd p.price_dp p.max_px) ∧
    Option.map GridRow.price (build_grid p).1.getLast? =
      some (rnd p.price_dp p.min_px) := by
  have h2 : 2 ≤ p.levels := h.2.2.2.1
  obtain ⟨k, hk⟩ : ∃ k, p.levels = k + 1 := ⟨p.levels - 1, by omega⟩
  refine ⟨by simp [build_grid], ?_, ?_⟩
  · show Option.map GridRow.price ((List.range p.levels).map (mkRow p)).head? = _
    rw [hk, List.range_succ_eq_map]
    simp only [List.map_cons, List.head?_cons, Option.map_some']
    rw [show (mkRow p 0).price = price p 0 from rfl, price_zero_eq]
  · show Option.map GridRow.price ((List.range p.levels).map (mkRow p)).getLast? = _
    rw [hk, List.range_succ, List.map_append, List.map_cons, List.map_nil,
      List.getLast?_concat]
    have hk2 : k = p.levels - 1 := by omega
    simp only [Option.map_some']
    rw [show (mkRow p k).price = price p k from rfl, hk2, price_last_eq h2]

theorem build_grid_shape_witness :
    Valid pW ∧
      ((build_grid pW).1.length = pW.levels ∧
       Option.map GridRow.price (build_grid pW).1.head? =
         some (rnd pW.price_dp pW.max_px) ∧
       Option.map GridRow.price (build_grid pW).1.getLast? =
         some (rnd pW.price_dp pW.min_px)) := by
  have hv : Valid pW := by norm_num [Valid, pW]
  exact ⟨hv, build_grid_shape pW hv⟩

/-- Claim C6: the spec's concrete scenario.  With
`min=1, max=7, start=2.7916, levels=124, usdt_slice=203.252, leverage=50,
price_dp=6`: `raw_gap = 6/123`, row 1 Price `= 7`, row 124 Price `= 1`,
Margin per lvl `= 4.07` in every row, row 124 Acc Margin `= 504.68`
and row 124 Nominal `= 25203.25`. -/
theorem concrete_scenario :
    (build_grid p6).2 = 6 / 123 ∧
    (mkRow p6 0).price = 7 ∧
    (mkRow p6 123).price = 1 ∧
    (∀ i : ℕ, (mkRow p6 i).marginPerLvl = 407 / 100) ∧
    (mkRow p6 123).accMargin = 50468 / 100 ∧
    (mkRow p6 123).notional = 2520325 / 100 := by
  refine ⟨?_, price_p6_zero, price_p6_last, ?_, acc_margin_p6_last,
    notional_p6_last⟩
  · show raw_gap p6 = 6 / 123
    norm_num [raw_gap, intervals, p6]
  · intro i
    show m_slice p6 = 407 / 100
    exact m_slice_p6

/-- Claim C7: `build_grid` does not validate the price range.  With
`max_px ≤ min_px` (and `levels ≥ 2`) it still returns a full `levels`-row
table and a non-positive `raw_gap`; the rejection happens only at the input
surface, whose guard blocks the computation. -/
theorem build_grid_no_range_check (p : GridParams) (h2 : 2 ≤ p.levels)
    (hle : p.max_px ≤ p.min_px) :
    (build_grid p).1.length = p.levels ∧ (build_grid p).2 ≤ 0 ∧
    ui_blocks p.max_px p.min_px = true := by
  refine ⟨by simp [build_grid], ?_, ?_⟩
  · show raw_gap p ≤ 0
    have hI := intervals_cast_pos h2
    unfold raw_gap
    exact div_nonpos_of_nonpos_of_nonneg (by linarith) hI.le
  · simp [ui_blocks, hle]

theorem build_grid_no_range_check_witness :
    2 ≤ pBad.levels ∧ pBad.max_px ≤ pBad.min_px ∧
      ((build_grid pBad).1.length = pBad.levels ∧ (build_grid pBad).2 ≤ 0 ∧
       ui_blocks pBad.max_px pBad.min_px = true) := by
  have h2 : 2 ≤ pBad.levels := by norm_num [pBad]
  have hle : pBad.max_px ≤ pBad.min_px := by norm_num [pBad]
  exact ⟨h2, hle, build_grid_no_range_check pBad h2 hle⟩

/-- Claim C8: saving the current parameters under a non-empty name stores a
record with all keys (both display fields included), and loading that record
back through `template_to_kwargs` reproduces the parameters exactly. -/
theorem template_round_trip (tpls : String → Option TemplateRecord)
    (name : String) (hname : name ≠ "") (k : Kwargs) :
    save_template tpls name k name = some (record_of_kwargs k) ∧
    template_to_kwargs (record_of_kwargs k) = k := by
  constructor
  · unfold save_template
    rw [if_neg hname]
    simp
  · rfl

theorem template_round_trip_witness :
    ("grid" : String) ≠ "" ∧
      (save_template emptyStore "grid" kW "grid" = some (record_of_kwargs kW) ∧
       template_to_kwargs (record_of_kwargs kW) = kW) :=
  ⟨by decide, template_round_trip emptyStore "grid" (by decide) kW⟩

/-- Claim C9: under the spec's preconditions strengthened by
`min_px > (1/2) * 10 ^ (-price_dp)`, every rounded level price is strictly
positive and every cumulative quantity is strictly positive, so neither
`usdt_slice / price` nor the VWAP division can divide by zero; the spec's
bare `min_price > 0` does not suffice, as `pZ` (positive `min_px = 0.001`,
`price_dp = 2`) rounds its bottom level price to `0`. -/
theorem rounded_prices_positive (p : GridParams) (h : Valid p)
    (hmin : 1 / (2 * 10 ^ p.price_dp) < p.min_px) (i : ℕ) (hi : i < p.levels) :
    (0 < price p i ∧ 0 < acc_qty p i) ∧
    (Valid pZ ∧ 0 < pZ.min_px ∧ price pZ (pZ.levels - 1) = 0) := by
  refine ⟨⟨?_, acc_qty_pos h hi⟩, by norm_num [Valid, pZ], by norm_num [pZ], ?_⟩
  · apply rnd_pos
    have hmr := min_le_raw_price h hi
    have hpow := pow_ten_pos p.price_dp
    rw [div_lt_iff₀ (by positivity)] at hmin
    nlinarith [mul_le_mul_of_nonneg_right hmr hpow.le]
  · show price pZ 1 = 0
    exact price_pZ_one

theorem rounded_prices_positive_witness :
    Valid pW ∧ 1 / (2 * 10 ^ pW.price_dp) < pW.min_px ∧ 0 < pW.levels ∧
      ((0 < price pW 0 ∧ 0 < acc_qty pW 0) ∧
       (Valid pZ ∧ 0 < pZ.min_px ∧ price pZ (pZ.levels - 1) = 0)) := by
  have hv : Valid pW := by norm_num [Valid, pW]
  have hm : 1 / (2 * 10 ^ pW.price_dp) < pW.min_px := by norm_num [pW]
  have hl : 0 < pW.levels := by norm_num [pW]
  exact ⟨hv, hm, hl, rounded_prices_positive pW hv hm 0 hl⟩

/-- Claim C10: when every rounded level price is strictly positive, each
row's Avg Price lies between that row's Price and the first row's Price,
and the Avg Price column is non-increasing across levels. -/
theorem vwap_bounded_monotone (p : GridParams) (h : Valid p)
    (hpos : ∀ j, j < p.levels → 0 < price p j) (i : ℕ) (hi : i < p.levels) :
    (price p i ≤ vwap p i ∧ vwap p i ≤ price p 0) ∧
    (i + 1 < p.levels → vwap p (i + 1) ≤ vwap p i) := by
  have hb := cum_notional_bounds h i hi
  have hA := acc_qty_pos h hi
  constructor
  · constructor
    · have h1 : price p i ≤ cum_notional p i / acc_qty p i :=
        (le_div_iff₀ hA).mpr hb.1
      calc price p i = rnd p.price_dp (price p i) := (price_rnd_fix p i).symm
        _ ≤ vwap p i := rnd_mono _ h1
    · have h2 : cum_notional p i / acc_qty p i ≤ price p 0 :=
        (div_le_iff₀ hA).mpr hb.2
      calc vwap p i ≤ rnd p.price_dp (price p 0) := rnd_mono _ h2
        _ = price p 0 := price_rnd_fix p 0
  · intro hi1
    have hA1 : 0 < acc_qty p (i + 1) := acc_qty_pos h hi1
    have hq : 10 ≤ qty p (i + 1) := qty_ge_ten h hi1
    have hpa : price p (i + 1) ≤ price p i := price_anti h (Nat.le_succ i)
    unfold vwap
    apply rnd_mono
    rw [div_le_div_iff₀ hA1 hA, cum_notional_step, acc_qty_step]
    have hkey : 0 ≤ (cum_notional p i - price p (i + 1) * acc_qty p i) *
        qty p (i + 1) := by
      apply mul_nonneg
      · have := mul_le_mul_of_nonneg_right hpa hA.le
        linarith [hb.1]
      · linarith
    nlinarith [hkey]

theorem vwap_bounded_monotone_witness :
    Valid pW ∧ (∀ j, j < pW.levels → 0 < price pW j) ∧ 0 < pW.levels ∧
      ((price pW 0 ≤ vwap pW 0 ∧ vwap pW 0 ≤ price pW 0) ∧
       (0 + 1 < pW.levels → vwap pW (0 + 1) ≤ vwap pW 0)) := by
  have hv : Valid pW := by norm_num [Valid, pW]
  have hp : ∀ j, j < pW.levels → 0 < price pW j := by
    intro j hj
    have hj2 : j < 2 := hj
    interval_cases j
    · rw [price_pW_zero]
      norm_num
    · rw [price_pW_one]
      norm_num
  have hl : 0 < pW.levels := by norm_num [pW]
  exact ⟨hv, hp, hl, vwap_bounded_monotone pW hv hp 0 hl⟩
